import Mathlib

/-!
Verification of the optics-framework browser-automation core: the
synchronization bridge (`run_async` in `common/async_utils.py`) and the DOM
resolution engine (`engines/elementsources/playwright_page_source.py`).

Strings from the Python side are modelled as `List Char` (called `Str`), so
that Python's per-character operations (`lower`, `strip`, `split`, substring
containment) translate directly.  Interactions with the live Playwright
driver (locator counts, bounding boxes, innerText, timestamps) are the
external collaborator boundary and enter the model as oracle parameters.
-/

namespace Optics

/-- Python strings, modelled as lists of characters. -/
abbrev Str := List Char

/-- The single-quote character. -/
def squote : Char := Char.ofNat 39

/-- The double-quote character. -/
def dquote : Char := Char.ofNat 34

/-- Python `str.lower()` (ASCII model). -/
def pyLower (s : Str) : Str := s.map Char.toLower

/-- Python whitespace test used by `str.strip()`. -/
def isPySpace (c : Char) : Bool :=
  c = ' ' || c = Char.ofNat 9 || c = Char.ofNat 10 || c = Char.ofNat 13 ||
  c = Char.ofNat 11 || c = Char.ofNat 12

/-- Python `str.strip()`: drop whitespace from both ends. -/
def pyStrip (s : Str) : Str :=
  ((s.dropWhile isPySpace).reverse.dropWhile isPySpace).reverse

/-- Truthiness of an optional Python string: `None` and `""` are falsy. -/
def pyTruthyOpt (o : Option Str) : Bool :=
  match o with
  | none => false
  | some s => !s.isEmpty

/-- Python `str.split(sep)` for a one-character separator.
Always returns a non-empty list of chunks; empty chunks are preserved. -/
def pySplit (sep : Char) : Str → List Str
  | [] => [[]]
  | c :: rest =>
    match pySplit sep rest with
    | [] => [[]]
    | h :: t => if c = sep then [] :: h :: t else (c :: h) :: t

/-- Python `sep.join(parts)`. -/
def pyJoin (sep : Str) : List Str → Str
  | [] => []
  | [p] => p
  | p :: rest => p ++ sep ++ pyJoin sep rest

/-- No two consecutive underscores (part of Python's numeric grammar). -/
def noDoubleUnderscore : Str → Bool
  | c1 :: c2 :: rest => !(c1 = '_' && c2 = '_') && noDoubleUnderscore (c2 :: rest)
  | _ => true

/-- Digit run accepted by Python `int()`: digits with single underscores
strictly between digits. -/
def pyDigitsOk (s : Str) : Bool :=
  match s with
  | [] => false
  | c :: _ =>
    c.isDigit && (s.getLast?.any Char.isDigit) &&
    s.all (fun d => d.isDigit || d = '_') && noDoubleUnderscore s

/-- Numeric value of a digit run (underscores ignored). -/
def digitsVal (s : Str) : Nat :=
  (s.filter (fun c => c ≠ '_')).foldl (fun acc c => acc * 10 + (c.toNat - 48)) 0

/-- Model of Python `int(s)` on a `str` argument (base 10, ASCII). -/
def pyInt (s : Str) : Option Int :=
  let t := pyStrip s
  match t with
  | [] => none
  | c :: rest =>
    if c = '+' then
      if pyDigitsOk rest then some (digitsVal rest : Int) else none
    else if c = '-' then
      if pyDigitsOk rest then some (-(digitsVal rest : Int)) else none
    else
      if pyDigitsOk t then some (digitsVal t : Int) else none

/-! ## Error model (`optics_framework.common.error`)

Only the error codes raised by the two source files are modelled.  An
`OpticsErr` carries the code, the message, and an optional `cause` exception,
mirroring `OpticsError(code, message, cause=...)`. -/

/-- Error codes used by the modelled code paths. -/
inductive Code where
  | E0101
  | E0102
  | E0403
deriving DecidableEq

/-- Non-Optics Python exceptions that the bridge can observe. -/
inductive PyExc where
  | timeoutError
  | futureTimeoutError
  | other (id : Nat)
deriving DecidableEq

/-- `OpticsError` instances: code, message, optional cause. -/
structure OpticsErr where
  code : Code
  message : Str
  cause : Option PyExc
deriving DecidableEq

/-- An exception propagating out of a modelled call: either a raw Python
exception or a domain `OpticsError`. -/
inductive PyError where
  | exc (e : PyExc)
  | optics (e : OpticsErr)
deriving DecidableEq

/-! ## Synchronization bridge (`async_utils.run_async`)

`run_async` submits the coroutine to the persistent background loop and
blocks on `future.result(timeout=120)`.  The future's behaviour is modelled
by when (in seconds) the submitted work completes and with what outcome; the
blocking wait observes the value iff completion happens within the timeout
bound.  `doneAtHandling` models the `future.done()` probe performed inside
the exception handlers (a completion racing with the timeout may make the
future non-cancellable).  The second component of the result records whether
`future.cancel()` was invoked. -/

/-- Outcome of the submitted asynchronous work: completes at time `t`
(seconds) with a value or an exception, or never completes. -/
inductive FutureOutcome (α : Type) where
  | completes (t : Nat) (r : Except PyExc α)
  | never

/-- Whether the work completes within `timeout` seconds. -/
def completesWithin (timeout : Nat) : FutureOutcome α → Bool
  | .completes t _ => t ≤ timeout
  | .never => false

/-- The fixed bound passed to `future.result(timeout=120)`. -/
def RUN_ASYNC_TIMEOUT : Nat := 120

/-- Message of the timeout `OpticsError`. -/
def timeoutMessage : Str := "Async operation timed out after 120 seconds".toList

/-- Model of `run_async`.  Returns the call's result (value or raised
exception) together with a flag recording whether `future.cancel()` was
called.  When `future.result` returns or raises the coroutine's own
exception the future is done, so no cancellation happens in those branches;
`TimeoutError`/`FutureTimeoutError` are converted to `OpticsError(E0102)`
carrying the original exception as cause. -/
def run_async (out : FutureOutcome α) (doneAtHandling : Bool) :
    Except PyError α × Bool :=
  match out with
  | .completes t r =>
    if t ≤ RUN_ASYNC_TIMEOUT then
      match r with
      | .ok v => (.ok v, false)
      | .error e =>
        if e = .timeoutError ∨ e = .futureTimeoutError then
          (.error (.optics ⟨.E0102, timeoutMessage, some e⟩), false)
        else
          (.error (.exc e), false)
    else
      (.error (.optics ⟨.E0102, timeoutMessage, some .futureTimeoutError⟩),
       !doneAtHandling)
  | .never =>
    (.error (.optics ⟨.E0102, timeoutMessage, some .futureTimeoutError⟩),
     !doneAtHandling)

/-! ## DOM element view and semantic classifiers

`El` is the normalized node view used by the pure classification helpers
(`_is_button`, `_is_input`, `_is_image`, `_is_text`,
`_is_probably_interactive`, `_should_include_element`): the tag name plus the
attribute mapping.  lxml attribute maps have unique keys; they are modelled
as association lists. -/

/-- A DOM node's tag and attributes, as seen by the classifiers. -/
structure El where
  tag : Str
  attrs : List (Str × Str)
deriving DecidableEq

/-- `attrs.get(k)`: look an attribute up, `None` when absent. -/
def attrGet (el : El) (k : Str) : Option Str := el.attrs.lookup k

/-- `attrs.get(k, default)`. -/
def attrGetD (el : El) (k : Str) (d : Str) : Str := (attrGet el k).getD d

/-- `k in attrs`. -/
def keyIn (el : El) (k : Str) : Bool := (attrGet el k).isSome

/-- Python `needle in hay` substring containment. -/
def pyContains (needle hay : Str) : Bool := decide (needle <:+: hay)

/-- `PlaywrightPageSource._is_button`. -/
def _is_button (el : El) : Bool :=
  if pyLower el.tag = "button".toList then true
  else if pyLower (attrGetD el "role".toList []) = "button".toList then true
  else if pyLower el.tag = "a".toList &&
      (pyLower (attrGetD el "role".toList []) = "button".toList ||
       pyContains "button".toList (pyLower (attrGetD el "class".toList []))) then true
  else false

/-- `PlaywrightPageSource._is_input`: tag in {input, textarea, select}. -/
def _is_input (el : El) : Bool :=
  ["input".toList, "textarea".toList, "select".toList].contains (pyLower el.tag)

/-- `PlaywrightPageSource._is_image`. -/
def _is_image (el : El) : Bool :=
  if pyLower el.tag = "img".toList then true
  else if pyLower (attrGetD el "role".toList []) = "img".toList then true
  else false

/-- The fixed text-bearing tag set of `_is_text`. -/
def textTags : List Str :=
  ["p", "span", "div", "h1", "h2", "h3", "h4", "h5", "h6",
   "label", "li", "td", "th", "a", "strong", "em", "b", "i"].map String.toList

/-- `PlaywrightPageSource._is_text`.  Inputs are excluded first; inside the
text-tag branch the source checks `aria-label` and then returns `True`
either way, which is preserved here. -/
def _is_text (el : El) : Bool :=
  if _is_input el then false
  else if textTags.contains (pyLower el.tag) then
    if !(pyStrip (attrGetD el "aria-label".toList [])).isEmpty then true
    else true
  else false

/-- Roles treated as interactive by `_is_probably_interactive`. -/
def interactiveRoles : List Str :=
  ["button", "link", "menuitem", "tab"].map String.toList

/-- `PlaywrightPageSource._is_probably_interactive`, translated clause by
clause.  Note the click-handler test is `"onclick" in attrs or
attrs.get("onclick")`: mere presence of the attribute suffices. -/
def _is_probably_interactive (el : El) : Bool :=
  if _is_button el then true
  else if pyLower el.tag = "a".toList && pyTruthyOpt (attrGet el "href".toList) then true
  else if _is_input el then true
  else if keyIn el "onclick".toList || pyTruthyOpt (attrGet el "onclick".toList) then true
  else if interactiveRoles.contains (pyLower (attrGetD el "role".toList [])) then true
  else if keyIn el "tabindex".toList then
    match pyInt (attrGetD el "tabindex".toList "0".toList) with
    | some n => decide (0 ≤ n)
    | none => false
  else false

/-- The interactivity predicate exactly as claim C4 words it: the
click-handler clause demands a NON-EMPTY `onclick` value. -/
def c4ClaimInteractive (el : El) : Bool :=
  _is_button el ||
  (pyLower el.tag = "a".toList && pyTruthyOpt (attrGet el "href".toList)) ||
  _is_input el ||
  pyTruthyOpt (attrGet el "onclick".toList) ||
  interactiveRoles.contains (pyLower (attrGetD el "role".toList [])) ||
  (match (attrGet el "tabindex".toList).bind pyInt with
   | some n => decide (0 ≤ n)
   | none => false)

/-- Claim C4 amended: presence of the `onclick` attribute (even with an
empty value) already counts as interactive. -/
def c4AmendedInteractive (el : El) : Bool :=
  _is_button el ||
  (pyLower el.tag = "a".toList && pyTruthyOpt (attrGet el "href".toList)) ||
  _is_input el ||
  keyIn el "onclick".toList ||
  interactiveRoles.contains (pyLower (attrGetD el "role".toList [])) ||
  (match (attrGet el "tabindex".toList).bind pyInt with
   | some n => decide (0 ≤ n)
   | none => false)

/-! ## XPath string-literal escaping

Two escapers exist in the source.  `_escape_xpath_value` (used by
`_build_xpath_from_attributes`) prefers single quotes and falls directly
back to `concat(...)`.  `_escape_for_xpath_literal` (used by
`_build_and_validate_attr_xpath`) prefers DOUBLE quotes, then single quotes,
then splits on the double quote.  To state validity of the produced
literals, a tiny AST of XPath string expressions is given a renderer and a
denotation. -/

/-- The `", "` argument-separator of the generated `concat(...)` calls. -/
def commaSpace : Str := [',', ' ']

/-- Separator string of `_escape_xpath_value`'s join:
`squote , space dquote squote dquote , space squote`. -/
def xvSep : Str :=
  [squote, ',', ' ', dquote, squote, dquote, ',', ' ', squote]

/-- `PlaywrightPageSource._escape_xpath_value`. -/
def _escape_xpath_value (val : Str) : Str :=
  if !val.contains squote then squote :: val ++ [squote]
  else
    "concat(".toList ++ [squote] ++ pyJoin xvSep (pySplit squote val) ++ [squote, ')']

/-- The `escaped_parts` accumulator loop of `_escape_for_xpath_literal`:
each part double-quoted, interleaved with the literal `'"'`. -/
def escapedPartsFL : List Str → List Str
  | [] => []
  | [p] => [dquote :: p ++ [dquote]]
  | p :: rest => (dquote :: p ++ [dquote]) :: [squote, dquote, squote] :: escapedPartsFL rest

/-- `PlaywrightPageSource._escape_for_xpath_literal`. -/
def _escape_for_xpath_literal (s : Str) : Str :=
  if !s.contains dquote then dquote :: s ++ [dquote]
  else if !s.contains squote then squote :: s ++ [squote]
  else "concat(".toList ++ pyJoin commaSpace (escapedPartsFL (pySplit dquote s)) ++ [')']

/-- The escaping procedure exactly as claim C5 words it: wrap in single
quotes when no single quote occurs, else in double quotes when no double
quote occurs, else fall back to the `concat(...)` assembly (reusing the
source's concat fallback, so the only divergence is the branch order). -/
def c5ClaimEscape (s : Str) : Str :=
  if !s.contains squote then squote :: s ++ [squote]
  else if !s.contains dquote then dquote :: s ++ [dquote]
  else "concat(".toList ++ pyJoin commaSpace (escapedPartsFL (pySplit dquote s)) ++ [')']

/-- One quoted fragment of an XPath string expression. -/
structure XLit where
  delim : Char
  content : Str
deriving DecidableEq

/-- Render a fragment: delimiter, content, delimiter. -/
def renderLit (l : XLit) : Str := l.delim :: l.content ++ [l.delim]

/-- An XPath string expression: a plain literal or a `concat(...)` call. -/
inductive XExpr where
  | lit (l : XLit)
  | cat (ls : List XLit)
deriving DecidableEq

/-- Render an expression to its surface syntax. -/
def renderX : XExpr → Str
  | .lit l => renderLit l
  | .cat ls => "concat(".toList ++ pyJoin commaSpace (ls.map renderLit) ++ [')']

/-- The string value an XPath engine computes for the expression. -/
def denoteX : XExpr → Str
  | .lit l => l.content
  | .cat ls => (ls.map XLit.content).flatten

/-- Syntactic well-formedness: every fragment is delimited by one of the two
quote characters and its content never contains its own delimiter. -/
def wfX : XExpr → Prop
  | .lit l => (l.delim = squote ∨ l.delim = dquote) ∧ ¬ l.content.contains l.delim
  | .cat ls => ls ≠ [] ∧ ∀ l ∈ ls, (l.delim = squote ∨ l.delim = dquote) ∧ ¬ l.content.contains l.delim

/-- AST mirror of `escapedPartsFL`: parts as double-quoted fragments
interleaved with a single-quoted `"` fragment. -/
def flLits : List Str → List XLit
  | [] => []
  | [p] => [⟨dquote, p⟩]
  | p :: rest => ⟨dquote, p⟩ :: ⟨squote, [dquote]⟩ :: flLits rest

/-- AST mirror of `_escape_xpath_value`'s concat: parts as single-quoted
fragments interleaved with a double-quoted `'` fragment. -/
def xvLits : List Str → List XLit
  | [] => []
  | [p] => [⟨squote, p⟩]
  | p :: rest => ⟨squote, p⟩ :: ⟨dquote, [squote]⟩ :: xvLits rest

/-! ## Parsed document trees

`etree.HTML` yields a tree of elements; each element has a tag, attributes,
its leading text (`.text`) and trailing text (`.tail`), and children.  A node
inside a document is identified by its path: the list of child indices from
the root.  lxml compares elements by identity, which paths capture. -/

/-- A parsed DOM tree. -/
inductive DomTree where
  | node (tag : Str) (attrs : List (Str × Str)) (text tail : Str)
      (children : List DomTree)

/-- Tag accessor. -/
def tagOf : DomTree → Str
  | .node t _ _ _ _ => t

/-- Attribute accessor. -/
def attrsOf : DomTree → List (Str × Str)
  | .node _ a _ _ _ => a

/-- `.text` accessor. -/
def textOf : DomTree → Str
  | .node _ _ tx _ _ => tx

/-- `.tail` accessor. -/
def tailOf : DomTree → Str
  | .node _ _ _ tl _ => tl

/-- Children accessor. -/
def childrenOf : DomTree → List DomTree
  | .node _ _ _ _ cs => cs

/-- The classifier view of a node. -/
def elOf (n : DomTree) : El := ⟨tagOf n, attrsOf n⟩

/-- A node position: child indices from the document root. -/
abbrev Path := List Nat

/-- Node lookup by path. -/
def nodeAt : DomTree → Path → Option DomTree
  | n, [] => some n
  | n, i :: rest =>
    match (childrenOf n).get? i with
    | some c => nodeAt c rest
    | none => none

/-- Element view at a path. -/
def elAt (doc : DomTree) (p : Path) : Option El := (nodeAt doc p).map elOf

mutual

/-- Pre-order (document-order) traversal of a subtree rooted at `pre`,
including the subtree root itself. -/
def preorderT (pre : Path) : DomTree → List (Path × DomTree)
  | .node t a tx tl cs => (pre, .node t a tx tl cs) :: preorderL pre 0 cs

/-- Pre-order traversal of a list of sibling subtrees. -/
def preorderL (pre : Path) (i : Nat) : List DomTree → List (Path × DomTree)
  | [] => []
  | c :: cs => preorderT (pre ++ [i]) c ++ preorderL pre (i + 1) cs

end

/-- `tree.xpath(".//*")`: all strict descendants of the root, in document
order. -/
def descendantsOf (doc : DomTree) : List (Path × DomTree) :=
  preorderL [] 0 (childrenOf doc)

/-- All nodes of the document (root included), in document order; used to
evaluate absolute `//tag[@attr=value]` queries. -/
def pathsOf (doc : DomTree) : List Path :=
  (preorderT [] doc).map (·.1)

/-! ## XPath generation (`get_xpath`)

The generated XPaths are modelled as an AST rather than raw strings; the
literal-escaping layer is verified separately (claim C5), so attribute
values appear in the AST unescaped. -/

/-- Generated XPath shapes: `//tag[@attr=value]`, the positional wrapper
`(//tag[@attr=value])[n]`, a structural root-to-node path with optional
sibling indices, or the empty output for an invalid node. -/
inductive GXPath where
  | attrEq (tag attr value : Str)
  | indexed (tag attr value : Str) (n : Nat)
  | structural (segs : List (Str × Option Nat))
deriving DecidableEq

/-- Does an element tag satisfy the tag test of `//tag[...]`? The `*`
pattern (from `node.tag or "*"`) matches everything. -/
def tagMatches (pat t : Str) : Bool := pat = "*".toList || pat = t

/-- Does the node at `p` match `//tag[@attr=value]`? -/
def attrEqCond (doc : DomTree) (tag attr value : Str) (p : Path) : Bool :=
  match nodeAt doc p with
  | some n => tagMatches tag (tagOf n) && ((attrsOf n).lookup attr = some value)
  | none => false

/-- `doc_tree.xpath("//tag[@attr=value]")`: matching nodes in document
order. -/
def evalAttrEq (doc : DomTree) (tag attr value : Str) : List Path :=
  (pathsOf doc).filter (attrEqCond doc tag attr value)

/-- `PlaywrightPageSource._ensure_xpath_uniqueness`: evaluate the candidate,
reject it on zero matches, keep it on exactly one, and wrap it in a
positional index otherwise (`matches.index(node)`, defaulting to 0 when the
node is somehow absent). -/
def _ensure_xpath_uniqueness (doc : DomTree) (p : Path) (tag attr value : Str) :
    Option GXPath :=
  let ms := evalAttrEq doc tag attr value
  if ms.isEmpty then none
  else if ms.length = 1 then some (.attrEq tag attr value)
  else
    let i := if ms.contains p then ms.indexOf p else 0
    some (.indexed tag attr value (i + 1))

/-- `PlaywrightPageSource._build_and_validate_attr_xpath`. -/
def _build_and_validate_attr_xpath (doc : DomTree) (p : Path) (el : El)
    (attr : Str) : Option GXPath :=
  let tag := if el.tag.isEmpty then "*".toList else el.tag
  match el.attrs.lookup attr with
  | none => none
  | some v => if v.isEmpty then none else _ensure_xpath_uniqueness doc p tag attr v

/-- Attribute priority order of `get_xpath`: primary `(id, data-testid,
name)` then secondary `(class, aria-label, title)`. -/
def xpathAttrOrder : List Str :=
  ["id", "data-testid", "name", "class", "aria-label", "title"].map String.toList

/-- `PlaywrightPageSource._try_attribute_xpaths`. -/
def _try_attribute_xpaths (doc : DomTree) (p : Path) (el : El) : Option GXPath :=
  xpathAttrOrder.findSome? (_build_and_validate_attr_xpath doc p el)

/-- Sibling-position segment for child `i` of `cs`: the tag, with a 1-based
index among same-tag siblings when more than one exists. -/
def sibSeg (cs : List DomTree) (i : Nat) (c : DomTree) : Str × Option Nat :=
  let tag := tagOf c
  if (cs.filter (fun s => tagOf s = tag)).length > 1 then
    (tag, some ((cs.take i).countP (fun s => tagOf s = tag) + 1))
  else (tag, none)

/-- Segments of `_build_hierarchical_xpath` below the document root. -/
def hierRest (cs : List DomTree) : Path → List (Str × Option Nat)
  | [] => []
  | i :: rest =>
    match cs.get? i with
    | none => []
    | some c => sibSeg cs i c :: hierRest (childrenOf c) rest

/-- `PlaywrightPageSource._build_hierarchical_xpath`: the structural
root-to-node path; the root itself never carries an index (it has no
parent). -/
def _build_hierarchical_xpath (doc : DomTree) (p : Path) : GXPath :=
  .structural ((tagOf doc, none) :: hierRest (childrenOf doc) p)

/-- `PlaywrightPageSource.get_xpath`: attribute strategies in priority
order, validated for uniqueness against the document, with the structural
path as the final fallback. -/
def get_xpath (doc : DomTree) (p : Path) : GXPath :=
  match nodeAt doc p with
  | none => .structural []
  | some n =>
    match _try_attribute_xpaths doc p (elOf n) with
    | some x => x
    | none => _build_hierarchical_xpath doc p

/-! ## Display-label resolution and descriptor assembly

The Playwright `innerText` fallback performs a driver round trip
(`locator.count()`, `locator.first.inner_text()`); it enters the model as an
oracle `pwInner : Path → Option Str` returning the raw inner text when a
locator could be built and resolved to at least one match, and `none` when
the locator was missing, empty, or the round trip failed. -/

/-- `PlaywrightPageSource._extract_dom_text`: direct text, then tail text,
stripped. -/
def _extract_dom_text (n : DomTree) : Option (Str × Str) :=
  if !(pyStrip (textOf n)).isEmpty then some (pyStrip (textOf n), "text".toList)
  else if !(pyStrip (tailOf n)).isEmpty then some (pyStrip (tailOf n), "tail".toList)
  else none

/-- Attribute fallback order of `_extract_attribute_text`. -/
def labelAttrOrder : List Str :=
  ["aria-label", "title", "alt", "placeholder"].map String.toList

/-- `PlaywrightPageSource._extract_attribute_text`. -/
def _extract_attribute_text (el : El) : Option (Str × Str) :=
  labelAttrOrder.findSome? fun k =>
    let value := pyStrip (attrGetD el k [])
    if !value.isEmpty then some (value, k) else none

/-- `PlaywrightPageSource._extract_playwright_text`, with the driver round
trip abstracted into `pwInner`. -/
def _extract_playwright_text (pwInner : Path → Option Str) (p : Path) :
    Option (Str × Str) :=
  match pwInner p with
  | none => none
  | some t =>
    if !(pyStrip t).isEmpty then some (pyStrip t, "innerText".toList) else none

/-- `PlaywrightPageSource._extract_identifier_text`: `id`, else the first
whitespace-separated token of `class`. -/
def _extract_identifier_text (el : El) : Option Str × Option Str :=
  let elementId := pyStrip (attrGetD el "id".toList [])
  if !elementId.isEmpty then (some elementId, some ("id".toList))
  else
    let className := pyStrip (attrGetD el "class".toList [])
    if !className.isEmpty then
      (some (className.takeWhile (fun c => !isPySpace c)), some ("class".toList))
    else (none, none)

/-- `PlaywrightPageSource._extract_display_text`: the four-step fallback
chain, first hit wins. -/
def _extract_display_text (n : DomTree) (pwInner : Path → Option Str)
    (p : Path) : Option Str × Option Str :=
  match _extract_dom_text n with
  | some (t, k) => (some t, some k)
  | none =>
    match _extract_attribute_text (elOf n) with
    | some (t, k) => (some t, some k)
    | none =>
      match _extract_playwright_text pwInner p with
      | some (t, k) => (some t, some k)
      | none => _extract_identifier_text (elOf n)

/-- `PlaywrightPageSource._should_include_element`. -/
def _should_include_element (el : El) (filter_config : Option (List Str)) : Bool :=
  match filter_config with
  | none => true
  | some fc =>
    if fc.isEmpty then true
    else if fc.contains "all".toList then true
    else
      let m1 := fc.contains "interactive".toList && _is_probably_interactive el
      let m2 := fc.contains "buttons".toList && _is_button el
      let m3 := fc.contains "inputs".toList && _is_input el
      let m4 := fc.contains "images".toList && _is_image el
      let m5 := fc.contains "text".toList && _is_text el
      m1 || m2 || m3 || m4 || m5

/-- Classifier attached to each supported category name (any other name
matches nothing). -/
def categoryMatches (c : Str) (el : El) : Bool :=
  if c = "interactive".toList then _is_probably_interactive el
  else if c = "buttons".toList then _is_button el
  else if c = "inputs".toList then _is_input el
  else if c = "images".toList then _is_image el
  else if c = "text".toList then _is_text el
  else false

/-- Python-dict assignment `d[k] = v` on an association list: overwrite in
place when the key exists, append otherwise. -/
def dictSet (d : List (Str × Option Str)) (k : Str) (v : Option Str) :
    List (Str × Option Str) :=
  if d.any (fun e => e.1 = k) then
    d.map (fun e => if e.1 = k then (k, v) else e)
  else d ++ [(k, v)]

/-- The residual-attribute comprehension of `_build_extra_metadata`: keep an
attribute when it is not the consumed label attribute and its value is
truthy and not `"false"` case-insensitively. -/
def metaBase (attrs : List (Str × Str)) (used_key : Option Str) :
    List (Str × Option Str) :=
  attrs.filterMap fun e =>
    if used_key ≠ some e.1 && !e.2.isEmpty && pyLower e.2 ≠ "false".toList then
      some (e.1, some e.2)
    else none

/-- `PlaywrightPageSource._build_extra_metadata`: residual attributes whose
value is truthy and not `"false"` (case-insensitive), minus the consumed
label attribute, then the six normalized fields assigned on top. -/
def _build_extra_metadata (attrs : List (Str × Str)) (used_key : Option Str)
    (tag : Str) : List (Str × Option Str) :=
  let base := metaBase attrs used_key
  let d := dictSet base "tag".toList (some tag)
  let d := dictSet d "class".toList (attrs.lookup "class".toList)
  let d := dictSet d "id".toList (attrs.lookup "id".toList)
  let d := dictSet d "role".toList (attrs.lookup "role".toList)
  let d := dictSet d "type".toList (attrs.lookup "type".toList)
  dictSet d "href".toList (attrs.lookup "href".toList)

/-- The six always-present metadata keys. -/
def fixedMetaKeys : List Str :=
  ["tag", "class", "id", "role", "type", "href"].map String.toList

/-- Bounding box in absolute viewport pixels, `{x1, y1, x2, y2}`. -/
structure Bounds where
  x1 : Int
  y1 : Int
  x2 : Int
  y2 : Int
deriving DecidableEq

/-- One enumeration result: `{text, bounds, xpath, extra}`. -/
structure ElementDescriptor where
  text : Str
  bounds : Bounds
  xpath : GXPath
  extra : List (Str × Option Str)
deriving DecidableEq

/-- Descriptor assembly for one included node, as in the body of the
`get_interactive_elements` loop: display text with the tag-name fallback,
the generated XPath, and the extra metadata. -/
def descFor (doc : DomTree) (pwInner : Path → Option Str)
    (q : Path × DomTree) (b : Bounds) : ElementDescriptor :=
  let pair := _extract_display_text q.2 pwInner q.1
  let tk : Str × Option Str :=
    match pair.1 with
    | some t => if t.isEmpty then (tagOf q.2, none) else (t, pair.2)
    | none => (tagOf q.2, none)
  { text := tk.1
    bounds := b
    xpath := get_xpath doc q.1
    extra := _build_extra_metadata (attrsOf q.2) tk.2 (tagOf q.2) }

/-- `PlaywrightPageSource.get_interactive_elements`: traverse all
descendants in document order, skip nodes without a computable bounding box
(the `boundsOf` oracle stands for `_extract_bounds` against the live page),
apply the filter test, and assemble descriptors. -/
def get_interactive_elements (doc : DomTree) (boundsOf : Path → Option Bounds)
    (pwInner : Path → Option Str) (filter_config : Option (List Str)) :
    List ElementDescriptor :=
  (descendantsOf doc).filterMap fun q =>
    match boundsOf q.1 with
    | none => none
    | some b =>
      if _should_include_element (elOf q.2) filter_config then
        some (descFor doc pwInner q b)
      else none

/-! ## Page preconditions, location, and assertion

The driver is duck-typed in the source: `_require_page` probes `self.driver`
for `None`, for the presence of a `page` attribute, and for a non-`None`
page.  `pageAttr = none` models a driver without the attribute;
`pageAttr = some none` a driver whose `launch_app` has not yet created the
page.  The optional `optics` mapping resolves logical element names. -/

/-- The injected Playwright driver, as `_require_page` and `locate` see
it. -/
structure PWDriver (Page : Type) where
  pageAttr : Option (Option Page)
  optics : Option (Str → Option (List Str))

/-- Message of the first guard of `_require_page`. -/
def driverNotInjectedMsg : Str :=
  ("Playwright driver is not injected into PlaywrightPageSource. " ++
   "Session may not be initialized.").toList

/-- Message of the second guard of `_require_page`. -/
def driverNoPageAttrMsg : Str :=
  "Playwright driver does not expose ".toList ++ [squote] ++ "page".toList ++
  [squote] ++ ". Invalid driver implementation or setup.".toList

/-- Message of the third guard of `_require_page`. -/
def pageNotInitializedMsg : Str :=
  ("Playwright page is not initialized yet. " ++
   "Ensure launch_app() completed before using element sources.").toList

/-- `PlaywrightPageSource._require_page`: the three-step fail-fast guard,
each failure a distinct `OpticsError(E0101)`. -/
def _require_page {Page : Type} (driver : Option (PWDriver Page)) :
    Except OpticsErr Page :=
  match driver with
  | none => .error ⟨.E0101, driverNotInjectedMsg, none⟩
  | some d =>
    match d.pageAttr with
    | none => .error ⟨.E0101, driverNoPageAttrMsg, none⟩
    | some none => .error ⟨.E0101, pageNotInitializedMsg, none⟩
    | some (some p) => .ok p

/-- `PlaywrightPageSource.get_page_source`: require the page, fetch the raw
markup through the bridge (the `contentOf` oracle), and return it.
Precondition failures propagate to the caller. -/
def get_page_source {Page : Type} (driver : Option (PWDriver Page))
    (contentOf : Page → Str) : Except PyError Str :=
  match _require_page driver with
  | .error e => .error (.optics e)
  | .ok p => .ok (contentOf p)

/-- The locator handle returned by `locate`: the resolved selector, the
optional `nth` narrowing, standing for `locator.first`. -/
structure HandleRef where
  selector : Str
  nth : Option Nat
deriving DecidableEq

/-- The logical-name resolution step at the top of `locate`: when the driver
carries an optics mapping and it yields a non-empty list, the first entry
replaces the element string. -/
def resolveOpticsName {Page : Type} (driver : Option (PWDriver Page))
    (element : Str) : Str :=
  match driver with
  | some d =>
    match d.optics with
    | some f =>
      match f element with
      | some (x :: _) => x
      | _ => element
    | none => element
  | none => element

/-- `PlaywrightPageSource.locate`.  The existence probe
(`_locator_exists`, i.e. `run_async(locator.count()) > 0` with every
exception swallowed to `False`) is the `countOf` oracle; a `countOf` error
models the probe throwing. -/
def locate {Page : Type} (driver : Option (PWDriver Page))
    (countOf : Str → Except Unit Nat) (element : Str) (index : Option Nat) :
    Except PyError (Option HandleRef) :=
  match _require_page driver with
  | .error e => .error (.optics e)
  | .ok _ =>
    let el2 := resolveOpticsName driver element
    let found :=
      match countOf el2 with
      | .ok n => decide (n > 0)
      | .error _ => false
    if found then .ok (some ⟨el2, index⟩) else .ok none

/-! ## Polling (`_retry_until`, `assert_elements`)

`_retry_until` polls `condition_fn` while `time.time() - start < timeout`,
sleeping 0.3 s between polls and swallowing every exception a poll raises.
Time is modelled in tenths of a second with condition evaluation taking no
time, so poll `k` runs at elapsed `3 * k` tenths and polls happen exactly
for `3 * k < timeoutTenths`. -/

/-- Number of polls performed for a timeout of `timeoutTenths` tenths:
`⌈timeoutTenths / 3⌉`. -/
def numPolls (timeoutTenths : Nat) : Nat := (timeoutTenths + 2) / 3

/-- The polling loop: `polls k` is the outcome of the `k`-th evaluation of
`condition_fn` (`.error` when it raised).  Stops at the first `.ok true`. -/
def retryLoop (polls : Nat → Except Unit Bool) : Nat → Nat → Bool
  | 0, _ => false
  | fuel + 1, k =>
    match polls k with
    | .ok true => true
    | _ => retryLoop polls fuel (k + 1)

/-- `PlaywrightPageSource._retry_until`. -/
def _retry_until (timeoutTenths : Nat) (polls : Nat → Except Unit Bool) : Bool :=
  retryLoop polls (numPolls timeoutTenths) 0

/-- The `elements` argument of `assert_elements`: one selector or a list. -/
inductive ElementsArg where
  | one (s : Str)
  | many (l : List Str)

/-- The `isinstance(elements, str)` normalization. -/
def ElementsArg.toList : ElementsArg → List Str
  | .one s => [s]
  | .many l => l

/-- Message of the invalid-rule `OpticsError(E0403)`. -/
def invalidRuleMsg : Str :=
  "Invalid rule. Use ".toList ++ [squote] ++ "any".toList ++ [squote] ++
  " or ".toList ++ [squote] ++ "all".toList ++ [squote] ++ [Char.ofNat 46]

/-- The nested `check()` of `assert_elements` at poll `k`:
`_resolve_and_exists` for every selector (the `resolvePoll` oracle; an
error models `_resolve_locator` raising mid-poll), aggregated with `any`
or `all`. -/
def assertCheck (rule : Str) (elements : List Str)
    (resolvePoll : Nat → Str → Except Unit Bool) (k : Nat) : Except Unit Bool := do
  let states ← elements.mapM (resolvePoll k)
  pure (if rule = "any".toList then states.any id else states.all id)

/-- `PlaywrightPageSource.assert_elements`: reject an invalid rule with
`OpticsError(E0403)`; swallow `_require_page` failures into
`(False, timestamp)`; otherwise poll through `_retry_until` and return the
aggregate with a timestamp (`tsNow` abstracts `utils.get_timestamp`). -/
def assert_elements {Page : Type} (driver : Option (PWDriver Page))
    (resolvePoll : Nat → Str → Except Unit Bool) (tsNow : Nat)
    (elements : ElementsArg) (timeoutTenths : Nat) (rule : Str) :
    Except PyError (Bool × Nat) :=
  if rule = "any".toList ∨ rule = "all".toList then
    match _require_page driver with
    | .error _ => .ok (false, tsNow)
    | .ok _ =>
      .ok (_retry_until timeoutTenths (assertCheck rule elements.toList resolvePoll), tsNow)
  else
    .error (.optics ⟨.E0403, invalidRuleMsg, none⟩)

/-! # Theorems -/

/-- Claim C8: every node classified as an input (`tag` in
{input, textarea, select}) is not classified as text — the `inputs` and
`text` categories are mutually exclusive. -/
theorem c8_inputs_never_text (el : El) (h : _is_input el = true) :
    _is_text el = false := by
  unfold _is_text
  simp [h]

/-- Witness for C8 at a concrete `<input>` node. -/
theorem c8_inputs_never_text_witness :
    _is_input ⟨"input".toList, []⟩ = true ∧ _is_text ⟨"input".toList, []⟩ = false :=
  ⟨by decide, c8_inputs_never_text ⟨"input".toList, []⟩ (by decide)⟩

/-- Claim C1: `run_async` blocks until the submitted work completes or the
fixed 120-second bound elapses.  When the work does not complete within the
bound, the call fails with `OpticsError(E0102)` carrying the original
timeout exception as its cause, and the pending future is cancelled exactly
when it is not already done; when the work completes in time with a value,
that value is returned unchanged and nothing is cancelled. -/
theorem c1_run_async_timeout (out : FutureOutcome Nat) (done : Bool)
    (h : completesWithin RUN_ASYNC_TIMEOUT out = false) :
    run_async out done =
      (.error (.optics ⟨.E0102, timeoutMessage, some .futureTimeoutError⟩), !done)
    ∧ ∀ t v, t ≤ RUN_ASYNC_TIMEOUT →
        run_async (FutureOutcome.completes t (Except.ok v) : FutureOutcome Nat)
          done = (.ok v, false) := by
  constructor
  · cases out with
    | completes t r =>
      have h' : ¬ t ≤ RUN_ASYNC_TIMEOUT := by simpa [completesWithin] using h
      simp [run_async, h']
    | never => rfl
  · intro t v ht
    simp [run_async, ht]

/-- Witness for C1: never-completing work times out with the domain error
and a cancellation, and work completing at 5 s returns its value. -/
theorem c1_run_async_timeout_witness :
    completesWithin RUN_ASYNC_TIMEOUT (FutureOutcome.never : FutureOutcome Nat) = false
    ∧ run_async (FutureOutcome.never : FutureOutcome Nat) false =
        (.error (.optics ⟨.E0102, timeoutMessage, some .futureTimeoutError⟩), true)
    ∧ run_async (FutureOutcome.completes 5 (Except.ok 42) : FutureOutcome Nat) false =
        (.ok 42, false) := by
  have h : completesWithin RUN_ASYNC_TIMEOUT (FutureOutcome.never : FutureOutcome Nat) = false := rfl
  have H := c1_run_async_timeout FutureOutcome.never false h
  exact ⟨h, H.1, H.2 5 42 (by decide)⟩

/-- Claim C3: when the resolved selector has zero live matches — the count
probe returns 0 or throws — `locate` returns the not-found value `none`
rather than raising. -/
theorem c3_locate_absent_returns_none {Page : Type}
    (driver : Option (PWDriver Page)) (countOf : Str → Except Unit Nat)
    (element : Str) (index : Option Nat) (p : Page)
    (hp : _require_page driver = .ok p)
    (habs : countOf (resolveOpticsName driver element) = .ok 0 ∨
            countOf (resolveOpticsName driver element) = .error ()) :
    locate driver countOf element index = .ok none := by
  unfold locate
  rw [hp]
  rcases habs with h | h <;> simp [h]

/-- Witness for C3 at a concrete driver whose count probe returns 0. -/
theorem c3_locate_absent_returns_none_witness :
    _require_page (some (⟨some (some ()), none⟩ : PWDriver Unit)) = .ok ()
    ∧ locate (some (⟨some (some ()), none⟩ : PWDriver Unit))
        (fun _ => .ok 0) ("#missing".toList) none = .ok none :=
  ⟨rfl, c3_locate_absent_returns_none _ _ _ _ () rfl (Or.inl rfl)⟩

/-- Claim C9: when the page preconditions fail, `assert_elements` (with a
valid rule) swallows the initialization `OpticsError` and returns
`(False, timestamp)`, while the other page operations — `get_page_source`
and `locate` here — propagate it. -/
theorem c9_assert_swallows_page_errors {Page : Type}
    (driver : Option (PWDriver Page)) (err : OpticsErr)
    (resolvePoll : Nat → Str → Except Unit Bool) (tsNow : Nat)
    (elements : ElementsArg) (T : Nat) (rule : Str) (contentOf : Page → Str)
    (countOf : Str → Except Unit Nat) (element : Str) (index : Option Nat)
    (hrule : rule = "any".toList ∨ rule = "all".toList)
    (herr : _require_page driver = .error err) :
    assert_elements driver resolvePoll tsNow elements T rule = .ok (false, tsNow)
    ∧ get_page_source driver contentOf = .error (.optics err)
    ∧ locate driver countOf element index = .error (.optics err) := by
  refine ⟨?_, ?_, ?_⟩
  · unfold assert_elements
    rw [if_pos hrule, herr]
  · unfold get_page_source
    rw [herr]
  · unfold locate
    rw [herr]

/-- Witness for C9 with no driver injected: the first guard's error is
swallowed by `assert_elements` and propagated by the other operations. -/
theorem c9_assert_swallows_page_errors_witness :
    _require_page (none : Option (PWDriver Unit)) =
      .error ⟨.E0101, driverNotInjectedMsg, none⟩
    ∧ assert_elements (none : Option (PWDriver Unit)) (fun _ _ => .ok true) 3
        (ElementsArg.one ("x".toList)) 100 ("all".toList) = .ok (false, 3)
    ∧ get_page_source (none : Option (PWDriver Unit)) (fun _ => []) =
        .error (.optics ⟨.E0101, driverNotInjectedMsg, none⟩) := by
  have H := c9_assert_swallows_page_errors (none : Option (PWDriver Unit))
    ⟨.E0101, driverNotInjectedMsg, none⟩ (fun _ _ => .ok true) 3
    (ElementsArg.one ("x".toList)) 100 ("all".toList) (fun _ => [])
    (fun _ => .ok 0) ("x".toList) none (Or.inr rfl) rfl
  exact ⟨rfl, H.1, H.2.1⟩

/-- Counterexample to claim C4 as stated: a `<div onclick="">` node — the
click-handler attribute is present but EMPTY — is classified interactive by
the code (`"onclick" in attrs` short-circuits), while the claim's
characterization requires a non-empty `onclick`. -/
theorem c4_counterexample :
    _is_probably_interactive ⟨"div".toList, [("onclick".toList, [])]⟩ = true
    ∧ c4ClaimInteractive ⟨"div".toList, [("onclick".toList, [])]⟩ = false := by
  constructor <;> decide

/-- Claim C4 amended: a node is classified interactive iff it is a button,
or an anchor with non-empty `href`, or an input-family tag, or it CARRIES an
`onclick` attribute (empty or not), or its role is one of
{button, link, menuitem, tab}, or its `tabindex` parses to a non-negative
integer. -/
theorem c4_interactive_characterization (el : El) :
    _is_probably_interactive el = c4AmendedInteractive el := by
  unfold _is_probably_interactive c4AmendedInteractive
  cases hb : _is_button el <;>
  cases ha : (pyLower el.tag = "a".toList && pyTruthyOpt (attrGet el ("href".toList))) <;>
  cases hi : _is_input el <;>
  cases hr : interactiveRoles.contains (pyLower (attrGetD el ("role".toList) [])) <;>
  cases hoc : attrGet el ("onclick".toList) <;>
  cases htab : attrGet el ("tabindex".toList) <;>
  simp_all [keyIn, attrGetD, pyTruthyOpt]

/-- The polling loop succeeds iff some poll within the fuel window returns
`.ok true`; raising polls (`.error`) and `.ok false` polls merely
continue. -/
theorem retryLoop_eq_true_iff (polls : Nat → Except Unit Bool) :
    ∀ fuel k, retryLoop polls fuel k = true ↔
      ∃ j, j < fuel ∧ polls (k + j) = .ok true := by
  intro fuel
  induction fuel with
  | zero => intro k; simp [retryLoop]
  | succ n ih =>
    intro k
    unfold retryLoop
    cases hp : polls k with
    | ok b =>
      cases b
      · rw [ih (k + 1)]
        constructor
        · rintro ⟨j, hj, hpj⟩
          exact ⟨j + 1, by omega, by rw [show k + (j + 1) = k + 1 + j by omega]; exact hpj⟩
        · rintro ⟨j, hj, hpj⟩
          cases j with
          | zero => rw [Nat.add_zero] at hpj; rw [hp] at hpj; simp at hpj
          | succ j' =>
            exact ⟨j', by omega, by rw [show k + 1 + j' = k + (j' + 1) by omega]; exact hpj⟩
      · simp only [true_iff]
        exact ⟨0, by omega, by rw [Nat.add_zero]; exact hp⟩
    | error e =>
      rw [ih (k + 1)]
      constructor
      · rintro ⟨j, hj, hpj⟩
        exact ⟨j + 1, by omega, by rw [show k + (j + 1) = k + 1 + j by omega]; exact hpj⟩
      · rintro ⟨j, hj, hpj⟩
        cases j with
        | zero => rw [Nat.add_zero] at hpj; rw [hp] at hpj; simp at hpj
        | succ j' =>
          exact ⟨j', by omega, by rw [show k + 1 + j' = k + (j' + 1) by omega]; exact hpj⟩

/-- Poll `k` runs at elapsed `0.3 · k` seconds, so it happens exactly when
`3 * k` is below the timeout in tenths of a second. -/
theorem retry_until_eq_true_iff (T : Nat) (polls : Nat → Except Unit Bool) :
    _retry_until T polls = true ↔ ∃ k, 3 * k < T ∧ polls k = .ok true := by
  unfold _retry_until
  rw [retryLoop_eq_true_iff]
  constructor
  · rintro ⟨j, hj, hpj⟩
    rw [Nat.zero_add] at hpj
    refine ⟨j, ?_, hpj⟩
    unfold numPolls at hj
    omega
  · rintro ⟨k, hk, hpk⟩
    refine ⟨k, ?_, by rw [Nat.zero_add]; exact hpk⟩
    unfold numPolls
    omega

/-- Claim C2: `assert_elements` raises `OpticsError(E0403)` exactly for a
rule outside {any, all}; with a valid rule and a live page it never raises —
it returns `(b, timestamp)` where `b` is true iff some poll within the
timeout window (polls spaced by the fixed 0.3-second sleep) evaluates the
aggregate (`any`-OR / `all`-AND over the selectors, computed by
`assertCheck`) to true; polls that raise count as failed polls. -/
theorem c2_assert_elements_behavior {Page : Type}
    (driver : Option (PWDriver Page)) (resolvePoll : Nat → Str → Except Unit Bool)
    (tsNow : Nat) (elements : ElementsArg) (T : Nat) (rule : Str) :
    (¬ (rule = "any".toList ∨ rule = "all".toList) →
      assert_elements driver resolvePoll tsNow elements T rule =
        .error (.optics ⟨.E0403, invalidRuleMsg, none⟩))
    ∧ ((rule = "any".toList ∨ rule = "all".toList) →
        ∀ p, _require_page driver = .ok p →
        ∃ b : Bool,
          assert_elements driver resolvePoll tsNow elements T rule = .ok (b, tsNow)
          ∧ (b = true ↔
              ∃ k, 3 * k < T ∧
                assertCheck rule elements.toList resolvePoll k = .ok true)) := by
  constructor
  · intro hbad
    unfold assert_elements
    rw [if_neg hbad]
  · intro hrule p hp
    refine ⟨_retry_until T (assertCheck rule elements.toList resolvePoll), ?_, ?_⟩
    · unfold assert_elements
      rw [if_pos hrule, hp]
    · exact retry_until_eq_true_iff T _

/-- Witness for C2: a selector that starts existing at the second poll is
found with rule `any` within a 1-second timeout, and the invalid rule
`"some"` raises `E0403`. -/
theorem c2_assert_elements_behavior_witness :
    (∃ b : Bool,
      assert_elements (some (⟨some (some ()), none⟩ : PWDriver Unit))
          (fun k _ => .ok (decide (1 ≤ k))) 7 (ElementsArg.one ("#q".toList)) 10
          ("any".toList) = .ok (b, 7)
      ∧ (b = true ↔
          ∃ k, 3 * k < 10 ∧
            assertCheck ("any".toList) [("#q".toList)]
              (fun k _ => .ok (decide (1 ≤ k))) k = .ok true))
    ∧ assert_elements (some (⟨some (some ()), none⟩ : PWDriver Unit))
        (fun k _ => .ok (decide (1 ≤ k))) 7 (ElementsArg.one ("#q".toList)) 10
        ("some".toList) = .error (.optics ⟨.E0403, invalidRuleMsg, none⟩) := by
  have H := c2_assert_elements_behavior
    (some (⟨some (some ()), none⟩ : PWDriver Unit)) (fun k _ => .ok (decide (1 ≤ k))) 7
    (ElementsArg.one ("#q".toList)) 10 ("any".toList)
  have H2 := c2_assert_elements_behavior
    (some (⟨some (some ()), none⟩ : PWDriver Unit)) (fun k _ => .ok (decide (1 ≤ k))) 7
    (ElementsArg.one ("#q".toList)) 10 ("some".toList)
  exact ⟨H.2 (Or.inl rfl) () rfl, H2.1 (by decide)⟩

/-- In-place overwrite of key `k` leaves lookups of other keys
unchanged. -/
theorem lookup_map_overwrite_ne (d : List (Str × Option Str)) (k k' : Str)
    (v : Option Str) (h : k' ≠ k) :
    (d.map (fun e => if e.1 = k then (k, v) else e)).lookup k' = d.lookup k' := by
  induction d with
  | nil => rfl
  | cons e rest ih =>
    obtain ⟨a, b⟩ := e
    have hhead : (fun e : Str × Option Str => if e.1 = k then (k, v) else e) (a, b)
        = if a = k then (k, v) else (a, b) := rfl
    simp only [List.map_cons, hhead]
    by_cases he : a = k
    · subst he
      rw [if_pos rfl]
      have h2 : (k' == a) = false := beq_eq_false_iff_ne.mpr h
      simp [List.lookup, h2, ih]
    · rw [if_neg he]
      by_cases hk : k' = a <;> simp [List.lookup, hk, ih]

/-- Appending a binding for key `k` leaves lookups of other keys
unchanged. -/
theorem lookup_append_singleton_ne (d : List (Str × Option Str)) (k k' : Str)
    (v : Option Str) (h : k' ≠ k) :
    (d ++ [(k, v)]).lookup k' = d.lookup k' := by
  induction d with
  | nil =>
    have h2 : (k' == k) = false := beq_eq_false_iff_ne.mpr h
    simp [List.lookup, h2]
  | cons e rest ih =>
    obtain ⟨a, b⟩ := e
    by_cases hk : k' = a <;> simp [List.lookup, hk, ih]

/-- In-place overwrite of an existing key `k` makes its lookup the new
value. -/
theorem lookup_map_overwrite_self (d : List (Str × Option Str)) (k : Str)
    (v : Option Str) (hc : d.any (fun e => e.1 = k) = true) :
    (d.map (fun e => if e.1 = k then (k, v) else e)).lookup k = some v := by
  induction d with
  | nil => simp at hc
  | cons e rest ih =>
    obtain ⟨a, b⟩ := e
    have hhead : (fun e : Str × Option Str => if e.1 = k then (k, v) else e) (a, b)
        = if a = k then (k, v) else (a, b) := rfl
    simp only [List.map_cons, hhead]
    by_cases he : a = k
    · subst he
      rw [if_pos rfl]
      simp [List.lookup]
    · rw [if_neg he]
      simp only [List.any_cons, Bool.or_eq_true, decide_eq_true_eq] at hc
      have hr : rest.any (fun e => e.1 = k) = true := by
        rcases hc with hh | hh
        · exact absurd hh he
        · exact hh
      have h2 : (k == a) = false := beq_eq_false_iff_ne.mpr (Ne.symm he)
      simp [List.lookup, h2, ih hr]

/-- Assigning key `k` leaves lookups of other keys unchanged. -/
theorem lookup_dictSet_ne (d : List (Str × Option Str)) (k k' : Str)
    (v : Option Str) (h : k' ≠ k) :
    (dictSet d k v).lookup k' = d.lookup k' := by
  unfold dictSet
  by_cases hc : d.any (fun e => e.1 = k)
  · rw [if_pos hc]
    exact lookup_map_overwrite_ne d k k' v h
  · rw [if_neg hc]
    exact lookup_append_singleton_ne d k k' v h

/-- After assigning key `k`, looking `k` up yields the assigned value. -/
theorem lookup_dictSet_self (d : List (Str × Option Str)) (k : Str)
    (v : Option Str) : (dictSet d k v).lookup k = some v := by
  unfold dictSet
  by_cases hc : d.any (fun e => e.1 = k)
  · rw [if_pos hc]
    exact lookup_map_overwrite_self d k v hc
  · rw [if_neg hc]
    induction d with
    | nil => simp [List.lookup]
    | cons e rest ih =>
      obtain ⟨a, b⟩ := e
      simp only [List.any_cons, Bool.or_eq_true, decide_eq_true_eq, not_or] at hc
      obtain ⟨ha, hr⟩ := hc
      simp only [List.cons_append, List.lookup]
      have h2 : (k == a) = false := beq_eq_false_iff_ne.mpr (Ne.symm ha)
      rw [h2]
      exact ih hr

/-- Unfolding `metaBase` over a cons whose head passes the filter. -/
theorem metaBase_cons_pos (a b : Str) (rest : List (Str × Str))
    (used_key : Option Str)
    (hc : (used_key ≠ some a && !b.isEmpty && pyLower b ≠ "false".toList) = true) :
    metaBase ((a, b) :: rest) used_key = (a, some b) :: metaBase rest used_key := by
  have hfa : (fun e : Str × Str =>
      if used_key ≠ some e.1 && !e.2.isEmpty && pyLower e.2 ≠ "false".toList then
        some (e.1, some e.2) else none) (a, b) = some (a, some b) := by
    show (if used_key ≠ some a && !b.isEmpty && pyLower b ≠ "false".toList then
      some (a, some b) else none) = some (a, some b)
    rw [if_pos hc]
  simp only [metaBase]
  exact List.filterMap_cons_some hfa

/-- Unfolding `metaBase` over a cons whose head fails the filter. -/
theorem metaBase_cons_neg (a b : Str) (rest : List (Str × Str))
    (used_key : Option Str)
    (hc : ¬ (used_key ≠ some a && !b.isEmpty && pyLower b ≠ "false".toList) = true) :
    metaBase ((a, b) :: rest) used_key = metaBase rest used_key := by
  have hfa : (fun e : Str × Str =>
      if used_key ≠ some e.1 && !e.2.isEmpty && pyLower e.2 ≠ "false".toList then
        some (e.1, some e.2) else none) (a, b) = none := by
    show (if used_key ≠ some a && !b.isEmpty && pyLower b ≠ "false".toList then
      some (a, some b) else none) = none
    rw [if_neg hc]
  simp only [metaBase]
  exact List.filterMap_cons_none hfa

/-- The comprehension contains no binding for keys absent from the
attributes. -/
theorem lookup_metaBase_none (attrs : List (Str × Str)) (used_key : Option Str)
    (k : Str) (hk : k ∉ attrs.map Prod.fst) :
    (metaBase attrs used_key).lookup k = none := by
  induction attrs with
  | nil => rfl
  | cons e rest ih =>
    obtain ⟨a, b⟩ := e
    simp only [List.map_cons, List.mem_cons, not_or] at hk
    by_cases hc : (used_key ≠ some a && !b.isEmpty && pyLower b ≠ "false".toList) = true
    · rw [metaBase_cons_pos a b rest used_key hc]
      simp only [List.lookup]
      rw [beq_eq_false_iff_ne.mpr hk.1]
      exact ih hk.2
    · rw [metaBase_cons_neg a b rest used_key hc]
      exact ih hk.2

/-- Lookup in the comprehension over an attribute list with distinct keys:
a binding survives (as `some value`) exactly when the filter condition
accepts it. -/
theorem lookup_metaBase (attrs : List (Str × Str)) (used_key : Option Str)
    (k : Str) (hnodup : (attrs.map Prod.fst).Nodup) :
    (metaBase attrs used_key).lookup k =
    (attrs.lookup k).bind fun w =>
      if used_key ≠ some k && !w.isEmpty && pyLower w ≠ "false".toList then
        some (some w)
      else none := by
  induction attrs with
  | nil => rfl
  | cons e rest ih =>
    obtain ⟨a, b⟩ := e
    simp only [List.map_cons, List.nodup_cons] at hnodup
    by_cases hc : (used_key ≠ some a && !b.isEmpty && pyLower b ≠ "false".toList) = true
    · rw [metaBase_cons_pos a b rest used_key hc]
      by_cases hk : k = a
      · rw [show List.lookup k ((a, some b) :: metaBase rest used_key) =
            some (some b) from by simp [List.lookup, beq_iff_eq.mpr hk]]
        rw [show List.lookup k ((a, b) :: rest) = some b from by
          simp [List.lookup, beq_iff_eq.mpr hk]]
        simp only [Option.some_bind]
        rw [hk, if_pos hc]
      · rw [show List.lookup k ((a, some b) :: metaBase rest used_key) =
            List.lookup k (metaBase rest used_key) from by
          simp [List.lookup, beq_eq_false_iff_ne.mpr hk]]
        rw [show List.lookup k ((a, b) :: rest) = List.lookup k rest from by
          simp [List.lookup, beq_eq_false_iff_ne.mpr hk]]
        exact ih hnodup.2
    · rw [metaBase_cons_neg a b rest used_key hc]
      by_cases hk : k = a
      · rw [show List.lookup k ((a, b) :: rest) = some b from by
          simp [List.lookup, beq_iff_eq.mpr hk]]
        simp only [Option.some_bind]
        rw [hk, if_neg hc]
        exact lookup_metaBase_none rest used_key a hnodup.1
      · rw [show List.lookup k ((a, b) :: rest) = List.lookup k rest from by
          simp [List.lookup, beq_eq_false_iff_ne.mpr hk]]
        exact ih hnodup.2

/-- Claim C10: in the extra metadata, a key outside the six normalized
fields is bound (necessarily to `some w`) iff the attribute exists, is not
the consumed label attribute, and its value is truthy and not `"false"`
case-insensitively; independently the six keys `tag/class/id/role/type/href`
are always bound, `tag` to the node's tag name and the rest to the raw
attribute lookups. -/
theorem c10_extra_metadata (attrs : List (Str × Str)) (used_key : Option Str)
    (tag : Str) (hnodup : (attrs.map Prod.fst).Nodup) :
    (∀ k, k ∉ fixedMetaKeys → ∀ vv,
      (_build_extra_metadata attrs used_key tag).lookup k = some vv ↔
        ∃ w, attrs.lookup k = some w ∧ vv = some w ∧ used_key ≠ some k ∧
          w.isEmpty = false ∧ pyLower w ≠ "false".toList)
    ∧ (_build_extra_metadata attrs used_key tag).lookup ("tag".toList) = some (some tag)
    ∧ (_build_extra_metadata attrs used_key tag).lookup ("class".toList) =
        some (attrs.lookup ("class".toList))
    ∧ (_build_extra_metadata attrs used_key tag).lookup ("id".toList) =
        some (attrs.lookup ("id".toList))
    ∧ (_build_extra_metadata attrs used_key tag).lookup ("role".toList) =
        some (attrs.lookup ("role".toList))
    ∧ (_build_extra_metadata attrs used_key tag).lookup ("type".toList) =
        some (attrs.lookup ("type".toList))
    ∧ (_build_extra_metadata attrs used_key tag).lookup ("href".toList) =
        some (attrs.lookup ("href".toList)) := by
  simp only [_build_extra_metadata]
  refine ⟨?_, ?_, ?_, ?_, ?_, ?_, ?_⟩
  · intro k hk vv
    have h1 : k ≠ "tag".toList := by rintro rfl; exact hk (by decide)
    have h2 : k ≠ "class".toList := by rintro rfl; exact hk (by decide)
    have h3 : k ≠ "id".toList := by rintro rfl; exact hk (by decide)
    have h4 : k ≠ "role".toList := by rintro rfl; exact hk (by decide)
    have h5 : k ≠ "type".toList := by rintro rfl; exact hk (by decide)
    have h6 : k ≠ "href".toList := by rintro rfl; exact hk (by decide)
    rw [lookup_dictSet_ne _ _ _ _ h6, lookup_dictSet_ne _ _ _ _ h5,
      lookup_dictSet_ne _ _ _ _ h4, lookup_dictSet_ne _ _ _ _ h3,
      lookup_dictSet_ne _ _ _ _ h2, lookup_dictSet_ne _ _ _ _ h1,
      lookup_metaBase attrs used_key k hnodup]
    cases hak : attrs.lookup k with
    | none => simp
    | some w =>
      simp only [Option.some_bind]
      by_cases hc : (used_key ≠ some k && !w.isEmpty && pyLower w ≠ "false".toList) = true
      · rw [if_pos hc]
        simp only [Bool.and_eq_true, decide_eq_true_eq, Bool.not_eq_true',
          bne_iff_ne, ne_eq] at hc
        constructor
        · rintro h
          injection h with h
          exact ⟨w, rfl, h.symm, by tauto, by tauto, by tauto⟩
        · rintro ⟨w', hw', rfl, _, _, _⟩
          injection hw' with hw'
          rw [hw']
      · rw [if_neg hc]
        constructor
        · rintro h
          simp at h
        · rintro ⟨w', hw', rfl, hu, hw, hf⟩
          injection hw' with hw'
          subst hw'
          refine absurd ?_ hc
          simp only [Bool.and_eq_true, decide_eq_true_eq, Bool.not_eq_true',
            bne_iff_ne, ne_eq]
          tauto
  · rw [lookup_dictSet_ne _ _ _ _ (by decide), lookup_dictSet_ne _ _ _ _ (by decide),
      lookup_dictSet_ne _ _ _ _ (by decide), lookup_dictSet_ne _ _ _ _ (by decide),
      lookup_dictSet_ne _ _ _ _ (by decide), lookup_dictSet_self]
  · rw [lookup_dictSet_ne _ _ _ _ (by decide), lookup_dictSet_ne _ _ _ _ (by decide),
      lookup_dictSet_ne _ _ _ _ (by decide), lookup_dictSet_ne _ _ _ _ (by decide),
      lookup_dictSet_self]
  · rw [lookup_dictSet_ne _ _ _ _ (by decide), lookup_dictSet_ne _ _ _ _ (by decide),
      lookup_dictSet_ne _ _ _ _ (by decide), lookup_dictSet_self]
  · rw [lookup_dictSet_ne _ _ _ _ (by decide), lookup_dictSet_ne _ _ _ _ (by decide),
      lookup_dictSet_self]
  · rw [lookup_dictSet_ne _ _ _ _ (by decide), lookup_dictSet_self]
  · rw [lookup_dictSet_self]

/-- Witness for C10 on a concrete attribute list: a residual `data-x`
attribute survives, the `hidden="false"` attribute is dropped, and the six
normalized keys are present. -/
theorem c10_extra_metadata_witness :
    (([("data-x".toList, "1".toList), ("hidden".toList, "false".toList)].map
        Prod.fst).Nodup)
    ∧ ((_build_extra_metadata
          [("data-x".toList, "1".toList), ("hidden".toList, "false".toList)]
          none ("button".toList)).lookup ("data-x".toList) =
            some (some ("1".toList)) ↔
        ∃ w, ([("data-x".toList, "1".toList),
              ("hidden".toList, "false".toList)]).lookup ("data-x".toList) = some w ∧
          (some ("1".toList) : Option Str) = some w ∧ (none : Option Str) ≠ some ("data-x".toList) ∧
          w.isEmpty = false ∧ pyLower w ≠ "false".toList)
    ∧ (_build_extra_metadata
        [("data-x".toList, "1".toList), ("hidden".toList, "false".toList)]
        none ("button".toList)).lookup ("tag".toList) =
          some (some ("button".toList)) := by
  have hn : (([("data-x".toList, "1".toList),
      ("hidden".toList, "false".toList)]).map Prod.fst).Nodup := by decide
  have H := c10_extra_metadata
    [("data-x".toList, "1".toList), ("hidden".toList, "false".toList)]
    none ("button".toList) hn
  exact ⟨hn, H.1 ("data-x".toList) (by decide) (some ("1".toList)), H.2.1⟩

/-- `pySplit` never produces an empty chunk list. -/
theorem pySplit_ne_nil (sep : Char) (s : Str) : pySplit sep s ≠ [] := by
  induction s with
  | nil => simp [pySplit]
  | cons c rest ih =>
    unfold pySplit
    cases h : pySplit sep rest with
    | nil => exact absurd h ih
    | cons hh tt => by_cases hc : c = sep <;> simp [hc]

/-- Prepending a character to the first chunk prepends it to the join. -/
theorem pyJoin_cons_front (sep : Str) (c : Char) (hh : Str) (tt : List Str) :
    pyJoin sep ((c :: hh) :: tt) = c :: pyJoin sep (hh :: tt) := by
  cases tt <;> simp [pyJoin]

/-- Joining on the separator inverts splitting on it. -/
theorem pyJoin_pySplit (sep : Char) (s : Str) :
    pyJoin [sep] (pySplit sep s) = s := by
  induction s with
  | nil => rfl
  | cons c rest ih =>
    cases h : pySplit sep rest with
    | nil => exact absurd h (pySplit_ne_nil sep rest)
    | cons hh tt =>
      rw [h] at ih
      have hstep : pySplit sep (c :: rest) =
          if c = sep then [] :: hh :: tt else (c :: hh) :: tt := by
        unfold pySplit
        rw [h]
      rw [hstep]
      by_cases hc : c = sep
      · rw [if_pos hc]
        subst hc
        cases tt <;> simp_all [pyJoin]
      · rw [if_neg hc, pyJoin_cons_front, ih]

/-- No chunk of a split contains the separator. -/
theorem pySplit_not_contains (sep : Char) (s : Str) :
    ∀ part ∈ pySplit sep s, part.contains sep = false := by
  induction s with
  | nil =>
    intro part hp
    simp [pySplit] at hp
    subst hp
    rfl
  | cons c rest ih =>
    intro part hp
    cases h : pySplit sep rest with
    | nil => exact absurd h (pySplit_ne_nil sep rest)
    | cons hh tt =>
      have hstep : pySplit sep (c :: rest) =
          if c = sep then [] :: hh :: tt else (c :: hh) :: tt := by
        unfold pySplit
        rw [h]
      rw [hstep] at hp
      have ih2 : ∀ q ∈ hh :: tt, q.contains sep = false := fun q hq => ih q (h ▸ hq)
      by_cases hc : c = sep
      · rw [if_pos hc] at hp
        rcases List.mem_cons.mp hp with rfl | hp2
        · rfl
        · exact ih2 part hp2
      · rw [if_neg hc] at hp
        rcases List.mem_cons.mp hp with rfl | hp2
        · have hhh := ih2 hh (List.mem_cons_self hh tt)
          simp only [List.contains_cons, Bool.or_eq_false_iff]
          exact ⟨beq_eq_false_iff_ne.mpr (fun he => hc he.symm), hhh⟩
        · exact ih2 part (List.mem_cons_of_mem hh hp2)

/-- `flLits` renders exactly to the `escaped_parts` accumulator of
`_escape_for_xpath_literal`. -/
theorem flLits_render (parts : List Str) :
    (flLits parts).map renderLit = escapedPartsFL parts := by
  induction parts with
  | nil => rfl
  | cons p rest ih =>
    cases rest with
    | nil => rfl
    | cons q qs =>
      simp only [flLits, escapedPartsFL, List.map_cons, ih]
      simp [renderLit]

/-- The denotation of the `flLits` fragments is the double-quote join of
the parts. -/
theorem flLits_denote (parts : List Str) :
    ((flLits parts).map XLit.content).flatten = pyJoin [dquote] parts := by
  induction parts with
  | nil => rfl
  | cons p rest ih =>
    cases rest with
    | nil => simp [flLits, pyJoin]
    | cons q qs =>
      simp only [flLits, List.map_cons, List.flatten_cons] at ih ⊢
      rw [ih]
      simp [pyJoin]

/-- `flLits` of a non-empty part list is non-empty. -/
theorem flLits_ne_nil (parts : List Str) (h : parts ≠ []) : flLits parts ≠ [] := by
  cases parts with
  | nil => exact absurd rfl h
  | cons p rest => cases rest <;> simp [flLits]

/-- Every `flLits` fragment is well-delimited when no part contains a
double quote. -/
theorem flLits_wf (parts : List Str)
    (hp : ∀ p ∈ parts, p.contains dquote = false) :
    ∀ l ∈ flLits parts,
      (l.delim = squote ∨ l.delim = dquote) ∧ ¬ l.content.contains l.delim := by
  induction parts with
  | nil => intro l hl; simp [flLits] at hl
  | cons p rest ih =>
    intro l hl
    have hcp : p.contains dquote = false := hp p (by simp)
    cases rest with
    | nil =>
      simp only [flLits, List.mem_singleton] at hl
      subst hl
      exact ⟨Or.inr rfl, by simpa using hcp⟩
    | cons q qs =>
      simp only [flLits, List.mem_cons] at hl
      rcases hl with rfl | rfl | hl
      · exact ⟨Or.inr rfl, by simpa using hcp⟩
      · exact ⟨Or.inl rfl, by decide⟩
      · exact ih (fun r hr => hp r (List.mem_cons_of_mem p hr)) l hl

/-- Unfolding `pyJoin` over a cons with a non-empty tail. -/
theorem pyJoin_cons_ne (sep a : Str) (l : List Str) (h : l ≠ []) :
    pyJoin sep (a :: l) = a ++ sep ++ pyJoin sep l := by
  cases l with
  | nil => exact absurd rfl h
  | cons b bs => rfl

/-- `xvLits` of a non-empty part list is non-empty. -/
theorem xvLits_ne_nil (parts : List Str) (h : parts ≠ []) : xvLits parts ≠ [] := by
  cases parts with
  | nil => exact absurd rfl h
  | cons p rest => cases rest <;> simp [xvLits]

/-- Rendering the `xvLits` fragments with the `", "` separator reproduces
the string assembled by `_escape_xpath_value`'s join. -/
theorem xvLits_render (parts : List Str) (h : parts ≠ []) :
    pyJoin commaSpace ((xvLits parts).map renderLit) =
      [squote] ++ pyJoin xvSep parts ++ [squote] := by
  induction parts with
  | nil => exact absurd rfl h
  | cons p rest ih =>
    cases rest with
    | nil => simp [xvLits, pyJoin, renderLit]
    | cons q qs =>
      have hmapne : (xvLits (q :: qs)).map renderLit ≠ [] := by
        simpa using xvLits_ne_nil (q :: qs) (by simp)
      simp only [xvLits, List.map_cons]
      rw [show pyJoin commaSpace (renderLit ⟨squote, p⟩ ::
            renderLit ⟨dquote, [squote]⟩ :: (xvLits (q :: qs)).map renderLit) =
          renderLit ⟨squote, p⟩ ++ commaSpace ++ pyJoin commaSpace
            (renderLit ⟨dquote, [squote]⟩ :: (xvLits (q :: qs)).map renderLit) from rfl]
      rw [pyJoin_cons_ne commaSpace _ _ hmapne]
      rw [ih (by simp)]
      rw [show pyJoin xvSep (p :: q :: qs) = p ++ xvSep ++ pyJoin xvSep (q :: qs) from rfl]
      simp [renderLit, xvSep, commaSpace]

/-- The denotation of the `xvLits` fragments is the single-quote join of
the parts. -/
theorem xvLits_denote (parts : List Str) :
    ((xvLits parts).map XLit.content).flatten = pyJoin [squote] parts := by
  induction parts with
  | nil => rfl
  | cons p rest ih =>
    cases rest with
    | nil => simp [xvLits, pyJoin]
    | cons q qs =>
      simp only [xvLits, List.map_cons, List.flatten_cons] at ih ⊢
      rw [ih]
      simp [pyJoin]

/-- Every `xvLits` fragment is well-delimited when no part contains a
single quote. -/
theorem xvLits_wf (parts : List Str)
    (hp : ∀ p ∈ parts, p.contains squote = false) :
    ∀ l ∈ xvLits parts,
      (l.delim = squote ∨ l.delim = dquote) ∧ ¬ l.content.contains l.delim := by
  induction parts with
  | nil => intro l hl; simp [xvLits] at hl
  | cons p rest ih =>
    intro l hl
    have hcp : p.contains squote = false := hp p (by simp)
    cases rest with
    | nil =>
      simp only [xvLits, List.mem_singleton] at hl
      subst hl
      exact ⟨Or.inl rfl, by simpa using hcp⟩
    | cons q qs =>
      simp only [xvLits, List.mem_cons] at hl
      rcases hl with rfl | rfl | hl
      · exact ⟨Or.inl rfl, by simpa using hcp⟩
      · exact ⟨Or.inr rfl, by decide⟩
      · exact ih (fun r hr => hp r (List.mem_cons_of_mem p hr)) l hl

/-- Counterexample to claim C5 as stated: on the plain value `a` (no quote
of either kind) `_escape_for_xpath_literal` wraps in DOUBLE quotes, not the
single quotes the claim prescribes; and on the value `'` (a single quote,
no double quote) `_escape_xpath_value` emits a `concat(...)` call rather
than wrapping in double quotes. -/
theorem c5_counterexample :
    _escape_for_xpath_literal [Char.ofNat 97] = [dquote, Char.ofNat 97, dquote]
    ∧ c5ClaimEscape [Char.ofNat 97] = [squote, Char.ofNat 97, squote]
    ∧ _escape_for_xpath_literal [Char.ofNat 97] ≠ c5ClaimEscape [Char.ofNat 97]
    ∧ c5ClaimEscape [squote] = [dquote, squote, dquote]
    ∧ _escape_xpath_value [squote] ≠ c5ClaimEscape [squote] := by
  refine ⟨rfl, rfl, by decide, rfl, by decide⟩

/-- Claim C5 amended: `_escape_for_xpath_literal` wraps in double quotes
when the value has no double quote, else in single quotes when it has no
single quote, else splits on the DOUBLE quote and reassembles with
`concat()`; `_escape_xpath_value` wraps in single quotes when the value has
no single quote and otherwise goes directly to the `concat()` fallback
splitting on the single quote.  Each produced string is a syntactically
valid XPath string expression denoting the original value: it is the
rendering of a well-formed literal/`concat` AST whose denotation is the
input. -/
theorem c5_escaping_characterization (s : Str) :
    (s.contains dquote = false →
      _escape_for_xpath_literal s = dquote :: s ++ [dquote])
    ∧ (s.contains dquote = true → s.contains squote = false →
      _escape_for_xpath_literal s = squote :: s ++ [squote])
    ∧ (s.contains squote = false →
      _escape_xpath_value s = squote :: s ++ [squote])
    ∧ (∃ e, wfX e ∧ renderX e = _escape_for_xpath_literal s ∧ denoteX e = s)
    ∧ (∃ e, wfX e ∧ renderX e = _escape_xpath_value s ∧ denoteX e = s) := by
  refine ⟨?_, ?_, ?_, ?_, ?_⟩
  · intro h
    unfold _escape_for_xpath_literal
    rw [if_pos (by simpa using h)]
  · intro hd hs
    unfold _escape_for_xpath_literal
    rw [if_neg (by simpa using hd), if_pos (by simpa using hs)]
  · intro h
    unfold _escape_xpath_value
    rw [if_pos (by simpa using h)]
  · by_cases hd : s.contains dquote = true
    · by_cases hs : s.contains squote = true
      · refine ⟨.cat (flLits (pySplit dquote s)), ?_, ?_, ?_⟩
        · exact ⟨flLits_ne_nil _ (pySplit_ne_nil dquote s),
            flLits_wf _ (pySplit_not_contains dquote s)⟩
        · unfold _escape_for_xpath_literal
          rw [if_neg (by simpa using hd), if_neg (by simpa using hs)]
          simp only [renderX, flLits_render]
        · simp only [denoteX, flLits_denote, pyJoin_pySplit]
      · have hs2 : s.contains squote = false := by simpa using hs
        refine ⟨.lit ⟨squote, s⟩, ⟨Or.inl rfl, by simpa using hs2⟩, ?_, rfl⟩
        unfold _escape_for_xpath_literal
        rw [if_neg (by simpa using hd), if_pos (by simpa using hs2)]
        rfl
    · have hd2 : s.contains dquote = false := by simpa using hd
      refine ⟨.lit ⟨dquote, s⟩, ⟨Or.inr rfl, by simpa using hd2⟩, ?_, rfl⟩
      unfold _escape_for_xpath_literal
      rw [if_pos (by simpa using hd2)]
      rfl
  · by_cases hs : s.contains squote = true
    · refine ⟨.cat (xvLits (pySplit squote s)), ?_, ?_, ?_⟩
      · exact ⟨xvLits_ne_nil _ (pySplit_ne_nil squote s),
          xvLits_wf _ (pySplit_not_contains squote s)⟩
      · unfold _escape_xpath_value
        rw [if_neg (by simpa using hs)]
        simp only [renderX]
        rw [xvLits_render _ (pySplit_ne_nil squote s)]
        simp
      · simp only [denoteX, xvLits_denote, pyJoin_pySplit]
    · have hs2 : s.contains squote = false := by simpa using hs
      refine ⟨.lit ⟨squote, s⟩, ⟨Or.inl rfl, by simpa using hs2⟩, ?_, rfl⟩
      unfold _escape_xpath_value
      rw [if_pos (by simpa using hs2)]
      rfl

/-- Witness for C5's amended characterization, exercising the three
branches of `_escape_for_xpath_literal` on concrete values. -/
theorem c5_escaping_characterization_witness :
    (([Char.ofNat 97] : Str).contains dquote = false ∧
      _escape_for_xpath_literal [Char.ofNat 97] = dquote :: [Char.ofNat 97] ++ [dquote])
    ∧ (([dquote] : Str).contains dquote = true ∧ ([dquote] : Str).contains squote = false ∧
      _escape_for_xpath_literal [dquote] = squote :: [dquote] ++ [squote])
    ∧ (([Char.ofNat 98] : Str).contains squote = false ∧
      _escape_xpath_value [Char.ofNat 98] = squote :: [Char.ofNat 98] ++ [squote]) := by
  have H1 := c5_escaping_characterization [Char.ofNat 97]
  have H2 := c5_escaping_characterization [dquote]
  have H3 := c5_escaping_characterization [Char.ofNat 98]
  exact ⟨⟨by decide, H1.1 (by decide)⟩,
    ⟨by decide, by decide, H2.2.1 (by decide) (by decide)⟩,
    ⟨by decide, H3.2.2.1 (by decide)⟩⟩

/-- With no filter list, an empty one, or one containing `"all"`, every
node passes the inclusion test. -/
theorem should_include_trivial (el : El) (F : Option (List Str))
    (hF : F = none ∨ F = some [] ∨
      ∃ fc, F = some fc ∧ fc.contains ("all".toList) = true) :
    _should_include_element el F = true := by
  rcases hF with rfl | rfl | ⟨fc, rfl, hall⟩
  · rfl
  · rfl
  · simp only [_should_include_element]
    by_cases he : fc.isEmpty = true
    · rw [if_pos he]
    · rw [if_neg he, if_pos hall]

/-- Evaluation of `categoryMatches` at each of the five supported category
names. -/
theorem categoryMatches_eval (el : El) :
    categoryMatches ("interactive".toList) el = _is_probably_interactive el
    ∧ categoryMatches ("buttons".toList) el = _is_button el
    ∧ categoryMatches ("inputs".toList) el = _is_input el
    ∧ categoryMatches ("images".toList) el = _is_image el
    ∧ categoryMatches ("text".toList) el = _is_text el := by
  unfold categoryMatches
  refine ⟨?_, ?_, ?_, ?_, ?_⟩
  · rw [if_pos rfl]
  · rw [if_neg (by decide), if_pos rfl]
  · rw [if_neg (by decide), if_neg (by decide), if_pos rfl]
  · rw [if_neg (by decide), if_neg (by decide), if_neg (by decide), if_pos rfl]
  · rw [if_neg (by decide), if_neg (by decide), if_neg (by decide),
      if_neg (by decide), if_pos rfl]

/-- Claim C6: a trivial filter configuration (absent, empty, or containing
`"all"`) makes `get_interactive_elements` return a descriptor for exactly
the nodes with a computable bounding box, in document order; any other
configuration includes a node exactly when it matches at least one
requested category (OR-combined). -/
theorem c6_filter_semantics (doc : DomTree) (boundsOf : Path → Option Bounds)
    (pwInner : Path → Option Str) (F : Option (List Str)) :
    ((F = none ∨ F = some [] ∨
        ∃ fc, F = some fc ∧ fc.contains ("all".toList) = true) →
      get_interactive_elements doc boundsOf pwInner F =
        (descendantsOf doc).filterMap
          (fun q => (boundsOf q.1).map (descFor doc pwInner q)))
    ∧ ∀ el fc, fc ≠ [] → fc.contains ("all".toList) = false →
        (_should_include_element el (some fc) = true ↔
          ∃ c ∈ fc, categoryMatches c el = true) := by
  constructor
  · intro hF
    unfold get_interactive_elements
    apply List.filterMap_congr
    intro q _
    cases hb : boundsOf q.1 with
    | none => rfl
    | some b => simp [should_include_trivial (elOf q.2) F hF]
  · intro el fc hne hall
    simp only [_should_include_element]
    rw [if_neg (by simpa using hne), if_neg (by simpa using hall)]
    constructor
    · intro h
      simp only [Bool.or_eq_true] at h
      rcases h with ((((h1 | h1) | h1) | h1) | h1) <;>
        rw [Bool.and_eq_true] at h1 <;> obtain ⟨hc, hm⟩ := h1
      · exact ⟨"interactive".toList, by simpa using hc,
          by rw [(categoryMatches_eval el).1]; exact hm⟩
      · exact ⟨"buttons".toList, by simpa using hc,
          by rw [(categoryMatches_eval el).2.1]; exact hm⟩
      · exact ⟨"inputs".toList, by simpa using hc,
          by rw [(categoryMatches_eval el).2.2.1]; exact hm⟩
      · exact ⟨"images".toList, by simpa using hc,
          by rw [(categoryMatches_eval el).2.2.2.1]; exact hm⟩
      · exact ⟨"text".toList, by simpa using hc,
          by rw [(categoryMatches_eval el).2.2.2.2]; exact hm⟩
    · rintro ⟨c, hc, hcat⟩
      by_cases h1 : c = "interactive".toList
      · subst h1
        rw [(categoryMatches_eval el).1] at hcat
        simp only [Bool.or_eq_true, Bool.and_eq_true]
        exact Or.inl (Or.inl (Or.inl (Or.inl ⟨by simpa using hc, hcat⟩)))
      · by_cases h2 : c = "buttons".toList
        · subst h2
          rw [(categoryMatches_eval el).2.1] at hcat
          simp only [Bool.or_eq_true, Bool.and_eq_true]
          exact Or.inl (Or.inl (Or.inl (Or.inr ⟨by simpa using hc, hcat⟩)))
        · by_cases h3 : c = "inputs".toList
          · subst h3
            rw [(categoryMatches_eval el).2.2.1] at hcat
            simp only [Bool.or_eq_true, Bool.and_eq_true]
            exact Or.inl (Or.inl (Or.inr ⟨by simpa using hc, hcat⟩))
          · by_cases h4 : c = "images".toList
            · subst h4
              rw [(categoryMatches_eval el).2.2.2.1] at hcat
              simp only [Bool.or_eq_true, Bool.and_eq_true]
              exact Or.inl (Or.inr ⟨by simpa using hc, hcat⟩)
            · by_cases h5 : c = "text".toList
              · subst h5
                rw [(categoryMatches_eval el).2.2.2.2] at hcat
                simp only [Bool.or_eq_true, Bool.and_eq_true]
                exact Or.inr ⟨by simpa using hc, hcat⟩
              · exfalso
                unfold categoryMatches at hcat
                rw [if_neg h1, if_neg h2, if_neg h3, if_neg h4, if_neg h5] at hcat
                exact absurd hcat (by simp)

/-- A two-node document used by the enumeration witnesses. -/
def c6Doc : DomTree :=
  .node ("html".toList) [] [] []
    [.node ("button".toList) [("id".toList, "go".toList)] ("Go".toList) [] [],
     .node ("div".toList) [] [] [] []]

/-- Witness for C6: with filter `["all"]` on a concrete page both bounded
nodes are returned, and the nontrivial filter `["buttons"]` includes a
button element exactly through its category match. -/
theorem c6_filter_semantics_witness :
    get_interactive_elements c6Doc (fun _ => some ⟨0, 0, 4, 4⟩) (fun _ => none)
        (some ["all".toList]) =
      (descendantsOf c6Doc).filterMap
        (fun q => ((fun (_ : Path) => some (⟨0, 0, 4, 4⟩ : Bounds)) q.1).map
          (descFor c6Doc (fun _ => none) q))
    ∧ (_should_include_element ⟨"button".toList, []⟩ (some ["buttons".toList]) = true ↔
        ∃ c ∈ ["buttons".toList], categoryMatches c ⟨"button".toList, []⟩ = true) := by
  have H := c6_filter_semantics c6Doc (fun _ => some ⟨0, 0, 4, 4⟩) (fun _ => none)
    (some ["all".toList])
  exact ⟨H.1 (Or.inr (Or.inr ⟨["all".toList], rfl, by decide⟩)),
    H.2 ⟨"button".toList, []⟩ ["buttons".toList] (by decide) (by decide)⟩

/-- Does the node at `p` carry `attr = value`? (the attribute half of the
`//tag[@attr=value]` test). -/
def attrValCond (doc : DomTree) (attr value : Str) (p : Path) : Bool :=
  match nodeAt doc p with
  | some n => (attrsOf n).lookup attr = some value
  | none => false

/-- Does the node at `p` satisfy the tag half of the test? -/
def tagCondAt (doc : DomTree) (tag : Str) (p : Path) : Bool :=
  match nodeAt doc p with
  | some n => tagMatches tag (tagOf n)
  | none => false

/-- The `//tag[@attr=value]` node test splits into its tag and attribute
halves. -/
theorem attrEqCond_split (doc : DomTree) (tag attr v : Str) (p : Path) :
    attrEqCond doc tag attr v p = (tagCondAt doc tag p && attrValCond doc attr v p) := by
  unfold attrEqCond attrValCond tagCondAt
  cases nodeAt doc p with
  | none => rfl
  | some n => rfl

/-- Evaluating `//tag[@attr=value]` filters the attribute matches by the
tag test. -/
theorem evalAttrEq_eq_filter (doc : DomTree) (tag attr v : Str) :
    evalAttrEq doc tag attr v =
      ((pathsOf doc).filter (attrValCond doc attr v)).filter (tagCondAt doc tag) := by
  unfold evalAttrEq
  rw [List.filter_filter]
  exact List.filter_congr (fun p _ => attrEqCond_split doc tag attr v p)

/-- Claim C7 amended: for a node carrying an `id` attribute with a
NON-EMPTY value that is unique in the whole document, `get_xpath` produces
the attribute-equality expression on `id`, and re-evaluating that
expression against the same document resolves to exactly that node.  (The
non-emptiness is forced: `if not value` skips empty attribute values.) -/
theorem c7_unique_id_roundtrip (doc : DomTree) (p : Path) (t : Str)
    (attrs : List (Str × Str)) (v : Str)
    (hel : elAt doc p = some ⟨t, attrs⟩)
    (hid : attrs.lookup ("id".toList) = some v)
    (hv : v.isEmpty = false)
    (huniq : (pathsOf doc).filter (attrValCond doc ("id".toList) v) = [p]) :
    get_xpath doc p =
      .attrEq (if t.isEmpty then "*".toList else t) ("id".toList) v
    ∧ evalAttrEq doc (if t.isEmpty then "*".toList else t) ("id".toList) v = [p] := by
  obtain ⟨n, hn, hne⟩ : ∃ n, nodeAt doc p = some n ∧ elOf n = ⟨t, attrs⟩ := by
    unfold elAt at hel
    cases hx : nodeAt doc p with
    | none => rw [hx] at hel; exact absurd hel (by simp)
    | some n =>
      rw [hx] at hel
      exact ⟨n, rfl, by simpa using hel⟩
  have htag : tagOf n = t := congrArg El.tag hne
  have hattrs : attrsOf n = attrs := congrArg El.attrs hne
  have heval : evalAttrEq doc (if t.isEmpty then "*".toList else t)
      ("id".toList) v = [p] := by
    rw [evalAttrEq_eq_filter, huniq]
    have htc : tagCondAt doc (if t.isEmpty then "*".toList else t) p = true := by
      have hstep : tagCondAt doc (if t.isEmpty then "*".toList else t) p
          = tagMatches (if t.isEmpty then "*".toList else t) (tagOf n) := by
        unfold tagCondAt
        rw [hn]
      rw [hstep, htag]
      unfold tagMatches
      by_cases hte : t.isEmpty = true
      · rw [if_pos hte]
        simp
      · rw [if_neg hte]
        simp
    rw [List.filter_cons, if_pos htc, List.filter_nil]
  refine ⟨?_, heval⟩
  have hbuild : _build_and_validate_attr_xpath doc p (elOf n) ("id".toList) =
      some (.attrEq (if t.isEmpty then "*".toList else t) ("id".toList) v) := by
    unfold _build_and_validate_attr_xpath
    rw [hne]
    simp only [hid]
    rw [if_neg (by simp [hv])]
    unfold _ensure_xpath_uniqueness
    simp only [heval]
    simp
  have horder : xpathAttrOrder = ("id".toList) ::
      ["data-testid".toList, "name".toList, "class".toList,
       "aria-label".toList, "title".toList] := rfl
  have htry : _try_attribute_xpaths doc p (elOf n) =
      some (.attrEq (if t.isEmpty then "*".toList else t) ("id".toList) v) := by
    unfold _try_attribute_xpaths
    rw [horder, List.findSome?_cons, hbuild]
  have hgx : get_xpath doc p = (match _try_attribute_xpaths doc p (elOf n) with
      | some x => x
      | none => _build_hierarchical_xpath doc p) := by
    unfold get_xpath
    rw [hn]
  rw [hgx, htry]

/-- A concrete document with a uniquely-identified node: `<html><div
id="x"/></html>`. -/
def c7Doc : DomTree :=
  .node ("html".toList) [] [] []
    [.node ("div".toList) [("id".toList, "x".toList)] [] [] []]

/-- Witness for C7's amended round trip on `c7Doc`. -/
theorem c7_unique_id_roundtrip_witness :
    elAt c7Doc [0] = some ⟨"div".toList, [("id".toList, "x".toList)]⟩
    ∧ get_xpath c7Doc [0] = .attrEq ("div".toList) ("id".toList) ("x".toList)
    ∧ evalAttrEq c7Doc ("div".toList) ("id".toList) ("x".toList) = [[0]] := by
  have H := c7_unique_id_roundtrip c7Doc [0] ("div".toList)
    [("id".toList, "x".toList)] ("x".toList) (by decide) (by decide) (by decide)
    (by decide)
  exact ⟨by decide, H.1, H.2⟩

/-- A document whose only `div` carries a unique but EMPTY `id`. -/
def c7CexDoc : DomTree :=
  .node ("html".toList) [] [] []
    [.node ("div".toList) [("id".toList, [])] [] [] []]

/-- Counterexample to claim C7 as stated: the `div` of `c7CexDoc` carries an
`id` attribute whose (empty) value is unique in the document, yet
`get_xpath` skips the falsy value and emits the structural path, not the
attribute-equality expression on `id`. -/
theorem c7_counterexample :
    elAt c7CexDoc [0] = some ⟨"div".toList, [("id".toList, [])]⟩
    ∧ (pathsOf c7CexDoc).filter (attrValCond c7CexDoc ("id".toList) []) = [[0]]
    ∧ get_xpath c7CexDoc [0] =
        .structural [("html".toList, none), ("div".toList, none)]
    ∧ ∀ tg, get_xpath c7CexDoc [0] ≠ .attrEq tg ("id".toList) [] := by
  refine ⟨by decide, by decide, by decide, ?_⟩
  intro tg
  rw [show get_xpath c7CexDoc [0] =
    .structural [("html".toList, none), ("div".toList, none)] from by decide]
  intro h
  exact absurd h (by simp)

end Optics
